import Mathlib

/-!
Verification of the ERC Budget Tracker's budget-aggregation layer, task-board
state machine, and import/export handlers, as a shallow embedding of the
TypeScript source.  JavaScript numbers are modelled as `Rat` (all the amounts
involved are decimal currency quantities), JS `undefined`-able fields as
`Option`, and the `Record<string, T>` maps that are keyed by the `Month` enum
and hold all 13 month keys (an invariant of the data model) as total functions
`Month → T`.
-/

namespace ERC

/-- The month-key enum from src/types.ts (`Month`): 12 calendar months plus a
"Jan (Next Year)" bucket. -/
inductive Month where
  | Jan | Feb | Mar | Apr | May | Jun | Jul | Aug | Sep | Oct | Nov | Dec
  | JanNext
deriving DecidableEq, Repr

/-- The fixed month ordering `MONTH_ORDER` from src/unnamed/part_004
(constants). -/
def MONTH_ORDER : List Month :=
  [Month.Jan, Month.Feb, Month.Mar, Month.Apr, Month.May, Month.Jun,
   Month.Jul, Month.Aug, Month.Sep, Month.Oct, Month.Nov, Month.Dec,
   Month.JanNext]

/-- The string key of a month, i.e. the value of the TS `Month` enum member. -/
def monthKey : Month → String
  | Month.Jan => "Jan"
  | Month.Feb => "Feb"
  | Month.Mar => "Mar"
  | Month.Apr => "Apr"
  | Month.May => "May"
  | Month.Jun => "Jun"
  | Month.Jul => "Jul"
  | Month.Aug => "Aug"
  | Month.Sep => "Sep"
  | Month.Oct => "Oct"
  | Month.Nov => "Nov"
  | Month.Dec => "Dec"
  | Month.JanNext => "Jan (Next Year)"

/-- Income categories of `IncomeSource.category` in src/types.ts. -/
inductive IncomeCategory where
  | Company | Staff
deriving DecidableEq, Repr

/-- Income sub-categories of `IncomeSource.subCategory` in src/types.ts. -/
inductive IncomeSubCategory where
  | Trading | Tech | Automation
deriving DecidableEq, Repr

/-- `IncomeSource` from src/types.ts.  `monthlyAmounts` is a
`Record<string, number>` keyed by the `Month` enum with all 13 keys present
(data-model invariant), modelled as a total function. -/
structure IncomeSource where
  id : String
  name : String
  category : IncomeCategory
  subCategory : IncomeSubCategory
  monthlyAmounts : Month → Rat

/-- `TaskStatus` from src/types.ts. -/
inductive TaskStatus where
  | Todo | InProgress | Done
deriving DecidableEq, Repr

/-- `ChecklistItem` as used by the task board in src/unnamed/part_000. -/
structure ChecklistItem where
  id : String
  text : String
  completed : Bool
deriving DecidableEq, Repr

/-- `EventTask` as used by the task board in src/unnamed/part_000: in addition
to the trimmed `EventTask` of src/types.ts (id, title, assignee, budget,
status) it carries the description, checklist and linked-event fields that
part_000 reads and writes.  An absent optional checklist is modelled as `[]`
and an absent/empty `linkedEventId` as `""` (the code treats both through JS
falsiness: `task.checklist ? … : []`, `task.linkedEventId ? … : null`). -/
structure EventTask where
  id : String
  title : String
  description : String
  assignee : String
  budget : Rat
  status : TaskStatus
  checklist : List ChecklistItem
  linkedEventId : String
deriving DecidableEq, Repr

/-- Event categories of `EventExpense.type` in src/types.ts. -/
inductive EventType where
  | Event | Birthday | Trip | Dinner | Sport
deriving DecidableEq, Repr

/-- `EventExpense` from src/types.ts.  The optional `tasks?: EventTask[]` is
modelled as a plain list with `[]` for absence (every consumption site guards
with `e.tasks || []` or `e.tasks && e.tasks.length > 0`). -/
structure EventExpense where
  id : String
  name : String
  month : Month
  amount : Rat
  actualAmount : Option Rat
  isRecurring : Option Bool
  notes : Option String
  type : EventType
  tasks : List EventTask
deriving DecidableEq, Repr

/-- `BadmintonSession` from src/types.ts. -/
structure BadmintonSession where
  id : String
  rate : Rat
  courts : Rat
  hours : Rat
deriving DecidableEq, Repr

/-- `MonthlyBadmintonSettings` from src/types.ts. -/
structure MonthlyBadmintonSettings where
  isSelected : Bool
  sessions : List BadmintonSession
deriving DecidableEq, Repr

/-- `BadmintonConfig` from src/types.ts: a `Record<string, …>` keyed by the
`Month` enum with all 13 keys present, modelled as a total function. -/
structure BadmintonConfig where
  months : Month → MonthlyBadmintonSettings

/-- The four persisted data collections held by the `App` component's state
(src/App.tsx lines 30-57). -/
structure AppState where
  events : List EventExpense
  incomeSources : List IncomeSource
  carryOver : Rat
  badmintonConfig : BadmintonConfig

/-- `AppData` from src/types.ts: the exported/persisted snapshot. -/
structure AppData where
  events : List EventExpense
  incomeSources : List IncomeSource
  carryOver : Rat
  badmintonConfig : BadmintonConfig
  lastUpdated : String

/- ---------------------------------------------------------------------- -/
/- Budget aggregator (src/App.tsx lines 90-153)                           -/
/- ---------------------------------------------------------------------- -/

/-- `yearlyIncome` (src/App.tsx lines 90-95): reduce over the sources, adding
each source's `Object.values(source.monthlyAmounts)` reduce.  With all 13
month keys present, `Object.values` enumerates `MONTH_ORDER`. -/
def yearlyIncome (incomeSources : List IncomeSource) : Rat :=
  incomeSources.foldl
    (fun total source =>
      total + (MONTH_ORDER.map source.monthlyAmounts).foldl (fun acc val => acc + val) 0)
    0

/-- `totalBudget` (src/App.tsx line 97): `carryOver + yearlyIncome`. -/
def totalBudget (carryOver : Rat) (incomeSources : List IncomeSource) : Rat :=
  carryOver + yearlyIncome incomeSources

/-- The cost of one month's session list:
`settings.sessions.reduce((sAcc, s) => sAcc + (s.rate * s.courts * s.hours), 0)`
(src/App.tsx line 102). -/
def sessionsCost (sessions : List BadmintonSession) : Rat :=
  sessions.foldl (fun sAcc s => sAcc + s.rate * s.courts * s.hours) 0

/-- `totalBadmintonCost` (src/App.tsx lines 99-104; the spec's
`recurringActivityCost`): reduce over `Object.values(config.months)`, skipping
months with `isSelected` false. -/
def totalBadmintonCost (config : BadmintonConfig) : Rat :=
  (MONTH_ORDER.map config.months).foldl
    (fun acc settings =>
      if !settings.isSelected then acc else acc + sessionsCost settings.sessions)
    0

/-- `totalEventPlanned` (src/App.tsx lines 106-108; the spec's
`totalPlannedExpense`). -/
def totalEventPlanned (events : List EventExpense) : Rat :=
  events.foldl (fun acc curr => acc + curr.amount) 0

/-- `totalActualSpent` (src/App.tsx lines 110-112; the spec's
`totalActualExpense`): `acc + (curr.actualAmount || 0)`. -/
def totalActualSpent (events : List EventExpense) : Rat :=
  events.foldl (fun acc curr => acc + curr.actualAmount.getD 0) 0

/-- `grandTotalPlanned` (src/App.tsx line 115). -/
def grandTotalPlanned (s : AppState) : Rat :=
  totalEventPlanned s.events + totalBadmintonCost s.badmintonConfig

/-- `projectedBalance` (src/App.tsx line 116). -/
def projectedBalance (s : AppState) : Rat :=
  totalBudget s.carryOver s.incomeSources - grandTotalPlanned s

/-- `actualBalance` (src/App.tsx line 117). -/
def actualBalance (s : AppState) : Rat :=
  totalBudget s.carryOver s.incomeSources - totalActualSpent s.events

/-- The mutable accumulator of the variance `useMemo`
(src/App.tsx lines 121-126). -/
structure VarAcc where
  plannedSum : Rat
  actualSum : Rat
  savings : Rat
  overspend : Rat
  sCount : Nat
  oCount : Nat
deriving DecidableEq, Repr

/-- One iteration of the `events.forEach` body of the variance `useMemo`
(src/App.tsx lines 128-141). -/
def varStep (acc : VarAcc) (e : EventExpense) : VarAcc :=
  match e.actualAmount with
  | none => acc
  | some a =>
    if a > 0 then
      let diff := e.amount - a
      let acc1 := { acc with
                    plannedSum := acc.plannedSum + e.amount,
                    actualSum := acc.actualSum + a }
      if diff > 0 then
        { acc1 with savings := acc1.savings + diff, sCount := acc1.sCount + 1 }
      else if diff < 0 then
        { acc1 with overspend := acc1.overspend + |diff|, oCount := acc1.oCount + 1 }
      else acc1
    else acc

/-- The record returned by the variance `useMemo`
(src/App.tsx lines 143-150). -/
structure VarianceSummary where
  variance : Rat
  totalPlannedForCompleted : Rat
  totalSavings : Rat
  totalOverspend : Rat
  savingsCount : Nat
  overspendCount : Nat
deriving DecidableEq, Repr

/-- The variance `useMemo` (src/App.tsx lines 120-151). -/
def varianceSummary (events : List EventExpense) : VarianceSummary :=
  let acc := events.foldl varStep ⟨0, 0, 0, 0, 0, 0⟩
  { variance := acc.plannedSum - acc.actualSum
    totalPlannedForCompleted := acc.plannedSum
    totalSavings := acc.savings
    totalOverspend := acc.overspend
    savingsCount := acc.sCount
    overspendCount := acc.oCount }

/-- Whether an event has a recorded actual amount that is strictly positive
(`e.actualAmount !== undefined && e.actualAmount > 0`, src/App.tsx line 129). -/
def hasPosActual (e : EventExpense) : Bool :=
  match e.actualAmount with
  | some a => decide (a > 0)
  | none => false

/-- An event's planned-minus-actual difference (`diff`, src/App.tsx line 132),
with an absent actual read as 0. -/
def eventVariance (e : EventExpense) : Rat :=
  e.amount - e.actualAmount.getD 0

/-- What one month adds to `totalBadmintonCost`: its session cost when
selected, 0 otherwise. -/
def monthContribution (c : BadmintonConfig) (m : Month) : Rat :=
  if (c.months m).isSelected then sessionsCost (c.months m).sessions else 0

/- ---------------------------------------------------------------------- -/
/- Export / import (src/App.tsx lines 157-175 and 435-464)                -/
/- ---------------------------------------------------------------------- -/

/-- `handleExport` (src/App.tsx lines 157-175): builds the `AppData` snapshot
from the current state, stamped with the current time. -/
def handleExport (s : AppState) (now : String) : AppData :=
  { events := s.events
    incomeSources := s.incomeSources
    carryOver := s.carryOver
    badmintonConfig := s.badmintonConfig
    lastUpdated := now }

/-- The parse result of an imported JSON file as `handleImport` sees it: each
top-level field is `some` exactly when it is present with the right type
(`data.events`, `data.incomeSources`, `typeof data.carryOver === 'number'`,
`data.badmintonConfig` — src/App.tsx line 445). -/
structure ImportData where
  events : Option (List EventExpense)
  incomeSources : Option (List IncomeSource)
  carryOver : Option Rat
  badmintonConfig : Option BadmintonConfig

/-- Parsing the JSON text produced by `handleExport` back into the shape
`handleImport` inspects: `JSON.stringify` followed by `JSON.parse` is lossless
on a well-typed `AppData`, so every field is present. -/
def parseExported (d : AppData) : ImportData :=
  { events := some d.events
    incomeSources := some d.incomeSources
    carryOver := some d.carryOver
    badmintonConfig := some d.badmintonConfig }

/-- The user-visible outcome of an import attempt: the success alert, the
declined confirmation, or the "Invalid file format. Missing required fields."
alert (src/App.tsx lines 446-454). -/
inductive ImportOutcome where
  | success | cancelled | invalidFormat
deriving DecidableEq, Repr

/-- `handleImport` (src/App.tsx lines 435-464): validates that all four
required fields are present, asks for confirmation, and only then replaces
all four state collections; otherwise the state is left untouched. -/
def handleImport (s : AppState) (d : ImportData) (confirmed : Bool) :
    AppState × ImportOutcome :=
  match d.events, d.incomeSources, d.carryOver, d.badmintonConfig with
  | some evs, some inc, some co, some bc =>
    if confirmed then
      ({ events := evs, incomeSources := inc, carryOver := co,
         badmintonConfig := bc }, ImportOutcome.success)
    else (s, ImportOutcome.cancelled)
  | _, _, _, _ => (s, ImportOutcome.invalidFormat)

/- ---------------------------------------------------------------------- -/
/- Badminton config creation, migration and toggling                      -/
/- ---------------------------------------------------------------------- -/

/-- `createInitialBadmintonConfig` (src/unnamed/part_004 lines 26-35): every
month gets `isSelected: false` and an empty session list. -/
def createInitialBadmintonConfig : BadmintonConfig :=
  { months := fun _ => { isSelected := false, sessions := [] } }

/-- `createEmptyBadmintonConfig` (src/unnamed/part_004 lines 37-46): same
construction as `createInitialBadmintonConfig`. -/
def createEmptyBadmintonConfig : BadmintonConfig :=
  { months := fun _ => { isSelected := false, sessions := [] } }

/-- One month's entry of a badminton config as it comes out of
`JSON.parse(saved)` before the migration check: `sessions` is `some` exactly
when the stored entry has an array-valued `sessions` field
(`Array.isArray(firstMonth.sessions)`, src/App.tsx line 52). -/
structure RawMonthlySettings where
  isSelected : Bool
  sessions : Option (List BadmintonSession)
deriving DecidableEq, Repr

/-- A parsed persisted badminton config before the migration check: `months`
is an untyped JS record, modelled as a key-value list. -/
structure RawBadmintonConfig where
  months : List (String × RawMonthlySettings)
deriving DecidableEq, Repr

/-- Reading a raw parsed config as a typed `BadmintonConfig` (the
`return parsed` path of the initializer): each month key is looked up in the
stored record. -/
def rawToBadmintonConfig (parsed : RawBadmintonConfig) : BadmintonConfig :=
  { months := fun m =>
      match parsed.months.lookup (monthKey m) with
      | some r => { isSelected := r.isSelected, sessions := r.sessions.getD [] }
      | none => { isSelected := false, sessions := [] } }

/-- The `badmintonConfig` `useState` initializer (src/App.tsx lines 45-57):
nothing saved gives the initial config; otherwise the saved JSON is parsed and
the migration check looks at the `'Jan'` entry — if it exists and its
`sessions` field is not an array, the whole config is discarded and replaced
by `createInitialBadmintonConfig()`. -/
def loadBadmintonConfig (saved : Option RawBadmintonConfig) : BadmintonConfig :=
  match saved with
  | none => createInitialBadmintonConfig
  | some parsed =>
    match parsed.months.lookup "Jan" with
    | some firstMonth =>
      if firstMonth.sessions.isNone then createInitialBadmintonConfig
      else rawToBadmintonConfig parsed
    | none => rawToBadmintonConfig parsed

/-- `toggleMonth` (src/unnamed/part_001 lines 29-33): replaces the chosen
month's entry with a copy whose `isSelected` flag is negated. -/
def toggleMonth (config : BadmintonConfig) (month : Month) : BadmintonConfig :=
  { config with
    months := fun m =>
      if m = month then
        { config.months month with isSelected := !(config.months month).isSelected }
      else config.months m }

/- ---------------------------------------------------------------------- -/
/- Task board (src/unnamed/part_000 lines 59-126)                         -/
/- ---------------------------------------------------------------------- -/

/-- JS `String.prototype.trim`: drops leading and trailing whitespace.
Implemented over the character list so that it evaluates inside the kernel. -/
def trimString (s : String) : String :=
  String.mk (((s.data.dropWhile Char.isWhitespace).reverse.dropWhile
    Char.isWhitespace).reverse)

/-- The task object built by `handleAddTask` (src/unnamed/part_000 lines
62-71).  `freshId` stands for the generated `` `task-${Date.now()}` `` string,
`budgetInput` for the result of `parseFloat(newTaskBudget)` with `none` for
`NaN`; `assignee || 'Team'` and `parseFloat(…) || 0` are the source's falsy
fallbacks. -/
def newTaskOf (freshId title description assignee : String)
    (budgetInput : Option Rat) : EventTask :=
  { id := freshId
    title := title
    description := description
    assignee := if assignee = "" then "Team" else assignee
    budget := budgetInput.getD 0
    status := TaskStatus.Todo
    checklist := []
    linkedEventId := "" }

/-- `handleAddTask` (src/unnamed/part_000 lines 59-79): a no-op when the title
trims to empty, otherwise appends the newly built task to the board. -/
def handleAddTask (tasks : List EventTask) (freshId title description assignee : String)
    (budgetInput : Option Rat) : List EventTask :=
  if trimString title = "" then tasks
  else tasks ++ [newTaskOf freshId title description assignee budgetInput]

/-- `handleUpdateTaskStatus` (src/unnamed/part_000 lines 81-84): maps over the
board, replacing the status of the task with the given id. -/
def handleUpdateTaskStatus (tasks : List EventTask) (taskId : String)
    (newStatus : TaskStatus) : List EventTask :=
  tasks.map fun t => if t.id = taskId then { t with status := newStatus } else t

/-- `handleDrop` (src/unnamed/part_000 lines 118-126): with no dragged task it
does nothing; otherwise it sets the dragged task's status to the target column
only when the task's current status differs
(`tasks.find(t => t.id === draggedTaskId)?.status !== targetStatus`). -/
def handleDrop (tasks : List EventTask) (draggedTaskId : Option String)
    (targetStatus : TaskStatus) : List EventTask :=
  match draggedTaskId with
  | none => tasks
  | some taskId =>
    if (tasks.find? (fun t => t.id = taskId)).map EventTask.status ≠ some targetStatus then
      handleUpdateTaskStatus tasks taskId targetStatus
    else tasks

/- ---------------------------------------------------------------------- -/
/- Event updates (src/App.tsx lines 507-516)                              -/
/- ---------------------------------------------------------------------- -/

/-- A `Partial<EventExpense>` as passed to `handleUpdateEvent`: each field is
`some` exactly when the key is present in the updates object.  The optional
fields of `EventExpense` carry a further `Option` for the value (a key can be
present with value `undefined`). -/
structure EventUpdates where
  name : Option String := none
  month : Option Month := none
  amount : Option Rat := none
  actualAmount : Option (Option Rat) := none
  isRecurring : Option (Option Bool) := none
  notes : Option (Option String) := none
  type : Option EventType := none
  tasks : Option (List EventTask) := none

/-- The spread merge `{ ...e, ...updates }` (src/App.tsx line 510): fields
whose key is present in the updates override the event's. -/
def mergeEvent (e : EventExpense) (u : EventUpdates) : EventExpense :=
  { id := e.id
    name := u.name.getD e.name
    month := u.month.getD e.month
    amount := u.amount.getD e.amount
    actualAmount := match u.actualAmount with | some v => v | none => e.actualAmount
    isRecurring := match u.isRecurring with | some v => v | none => e.isRecurring
    notes := match u.notes with | some v => v | none => e.notes
    type := u.type.getD e.type
    tasks := u.tasks.getD e.tasks }

/-- JS truthiness of an optional number: `undefined` and `0` are falsy. -/
def jsTruthyNum : Option Rat → Bool
  | some a => decide (a ≠ 0)
  | none => false

/-- `handleUpdateEvent` (src/App.tsx lines 507-516): merges the updates into
the event with the given id; when the update carries a truthy positive amount
and the event's notes read exactly `'Budget Pending'`, the merged event's
notes are cleared to `undefined`. -/
def handleUpdateEvent (events : List EventExpense) (id : String)
    (u : EventUpdates) : List EventExpense :=
  events.map fun e =>
    if e.id ≠ id then e
    else if jsTruthyNum u.amount && decide (u.amount.getD 0 > 0)
        && decide (e.notes = some "Budget Pending") then
      { mergeEvent e u with notes := none }
    else mergeEvent e u

/- ---------------------------------------------------------------------- -/
/- "Same data up to task links" relation (for non-interference)           -/
/- ---------------------------------------------------------------------- -/

/-- Two tasks agree on every field except possibly `linkedEventId`. -/
def taskSameExceptLink (t t' : EventTask) : Prop :=
  t.id = t'.id ∧ t.title = t'.title ∧ t.description = t'.description ∧
  t.assignee = t'.assignee ∧ t.budget = t'.budget ∧ t.status = t'.status ∧
  t.checklist = t'.checklist

/-- Two events agree on every field, their task lists pointwise up to
`linkedEventId`. -/
def eventSameExceptLinks (e e' : EventExpense) : Prop :=
  e.id = e'.id ∧ e.name = e'.name ∧ e.month = e'.month ∧ e.amount = e'.amount ∧
  e.actualAmount = e'.actualAmount ∧ e.isRecurring = e'.isRecurring ∧
  e.notes = e'.notes ∧ e.type = e'.type ∧
  List.Forall₂ taskSameExceptLink e.tasks e'.tasks

/-- Two application states agree on all data except possibly the
`linkedEventId` fields of their tasks. -/
def stateSameExceptLinks (s s' : AppState) : Prop :=
  List.Forall₂ eventSameExceptLinks s.events s'.events ∧
  s.incomeSources = s'.incomeSources ∧ s.carryOver = s'.carryOver ∧
  s.badmintonConfig = s'.badmintonConfig

/- ---------------------------------------------------------------------- -/
/- Concrete data for the spec's scenarios                                 -/
/- ---------------------------------------------------------------------- -/

/-- The spec scenario's first event: planned 300, actually spent 250. -/
def dinnerEvent : EventExpense :=
  { id := "ev1", name := "Annual Dinner", month := Month.Nov, amount := 300,
    actualAmount := some 250, isRecurring := none, notes := none,
    type := EventType.Dinner, tasks := [] }

/-- The spec scenario's second event: planned 100, actually spent 150. -/
def tripEvent : EventExpense :=
  { id := "ev2", name := "Day Trip", month := Month.May, amount := 100,
    actualAmount := some 150, isRecurring := none, notes := none,
    type := EventType.Trip, tasks := [] }

/-- A small concrete application state used to exercise the handlers. -/
def sampleState : AppState :=
  { events := [dinnerEvent, tripEvent], incomeSources := [], carryOver := 50,
    badmintonConfig := createInitialBadmintonConfig }

/-- An import payload whose `carryOver` field is missing. -/
def importMissingCarryOver : ImportData :=
  { events := some [], incomeSources := some [],
    carryOver := none, badmintonConfig := some createInitialBadmintonConfig }

/-- A badminton config with every month selected and two sessions of
rate 7.5, 2 courts, 2 hours (the spec's March scenario). -/
def sampleBadmintonConfig : BadmintonConfig :=
  { months := fun _ =>
      { isSelected := true,
        sessions := [{ id := "s1", rate := 7.5, courts := 2, hours := 2 },
                     { id := "s2", rate := 7.5, courts := 2, hours := 2 }] } }

/-- A concrete task already on a board. -/
def venueTask : EventTask :=
  { id := "task-1", title := "Book Venue", description := "", assignee := "Amy",
    budget := 120, status := TaskStatus.InProgress, checklist := [],
    linkedEventId := "" }

/-- A raw persisted badminton config in the pre-migration shape: both stored
month entries lack an array-valued `sessions` field. -/
def oldShapeRawConfig : RawBadmintonConfig :=
  { months := [("Jan", { isSelected := true, sessions := none }),
               ("Feb", { isSelected := false, sessions := none })] }

/-- A task with a cross-event link set. -/
def linkedTask : EventTask :=
  { id := "task-2", title := "Order Cake", description := "chocolate",
    assignee := "Team", budget := 40, status := TaskStatus.Todo,
    checklist := [{ id := "cl1", text := "ask flavours", completed := false }],
    linkedEventId := "ev1" }

/-- An event owning `linkedTask`. -/
def eventWithLink : EventExpense :=
  { id := "ev3", name := "Birthday", month := Month.Feb, amount := 80,
    actualAmount := some 90, isRecurring := none, notes := none,
    type := EventType.Birthday, tasks := [linkedTask] }

/-- The same event with the task's link cleared — all other data equal. -/
def eventWithoutLink : EventExpense :=
  { eventWithLink with tasks := [{ linkedTask with linkedEventId := "" }] }

/-- A state containing the linked task. -/
def stateWithLink : AppState :=
  { events := [dinnerEvent, eventWithLink], incomeSources := [], carryOver := 50,
    badmintonConfig := sampleBadmintonConfig }

/-- The same state with the task's link cleared. -/
def stateWithoutLink : AppState :=
  { events := [dinnerEvent, eventWithoutLink], incomeSources := [], carryOver := 50,
    badmintonConfig := sampleBadmintonConfig }

/- ---------------------------------------------------------------------- -/
/- Helper lemmas                                                          -/
/- ---------------------------------------------------------------------- -/

/-- A running `reduce` that only ever adds pulls out as a sum. -/
theorem foldl_add_extract {α : Type} (f : α → Rat) (l : List α) :
    ∀ a : Rat, l.foldl (fun t x => t + f x) a = a + (l.map f).sum := by
  induction l with
  | nil => intro a; simp
  | cons x l ih =>
    intro a
    simp only [List.foldl_cons, List.map_cons, List.sum_cons, ih]
    ring

/-- Folds of pointwise-equal step functions agree. -/
theorem foldl_ext {α β : Type} {f g : β → α → β} (h : ∀ acc x, f acc x = g acc x)
    (l : List α) : ∀ a : β, l.foldl f a = l.foldl g a := by
  induction l with
  | nil => intro a; rfl
  | cons x l ih => intro a; simp only [List.foldl_cons, h, ih]

/-- Changing the value of a map-sum at one element of a duplicate-free list
shifts the sum by exactly that element's difference. -/
theorem sum_map_replace {α : Type} [DecidableEq α] (l : List α) (m : α)
    (f g : α → Rat) (hnd : l.Nodup) (hm : m ∈ l)
    (hfg : ∀ k, k ≠ m → f k = g k) :
    (l.map f).sum = (l.map g).sum + (f m - g m) := by
  induction l with
  | nil => cases hm
  | cons a l ih =>
    by_cases hax : a = m
    · subst hax
      have hnotin : a ∉ l := (List.nodup_cons.mp hnd).1
      have hmap : l.map f = l.map g :=
        List.map_congr_left fun k hk => hfg k fun he => hnotin (he ▸ hk)
      simp only [List.map_cons, List.sum_cons, hmap]
      ring
    · have hm' : m ∈ l := by
        rcases List.mem_cons.mp hm with h1 | h1
        · exact absurd h1.symm hax
        · exact h1
      simp only [List.map_cons, List.sum_cons,
        ih (List.nodup_cons.mp hnd).2 hm', hfg a hax]
      ring

/-- `totalBadmintonCost` as a sum of per-month contributions. -/
theorem totalBadmintonCost_eq (c : BadmintonConfig) :
    totalBadmintonCost c = (MONTH_ORDER.map (monthContribution c)).sum := by
  have hstep : ∀ (acc : Rat) (s : MonthlyBadmintonSettings),
      (if !s.isSelected then acc else acc + sessionsCost s.sessions) =
        acc + (if s.isSelected then sessionsCost s.sessions else 0) := by
    intro acc s
    cases h : s.isSelected <;> simp [h]
  unfold totalBadmintonCost
  rw [foldl_ext hstep, foldl_add_extract, List.map_map]
  simp only [zero_add]
  rfl

/-- The running accumulator of the variance loop, in closed form. -/
theorem foldl_varStep_eq (l : List EventExpense) :
    ∀ acc : VarAcc, l.foldl varStep acc =
      { plannedSum := acc.plannedSum + ((l.filter hasPosActual).map EventExpense.amount).sum
        actualSum := acc.actualSum +
          ((l.filter hasPosActual).map (fun e => e.actualAmount.getD 0)).sum
        savings := acc.savings +
          ((l.filter fun e => hasPosActual e && decide (0 < eventVariance e)).map
            eventVariance).sum
        overspend := acc.overspend +
          ((l.filter fun e => hasPosActual e && decide (eventVariance e < 0)).map
            fun e => -eventVariance e).sum
        sCount := acc.sCount +
          (l.filter fun e => hasPosActual e && decide (0 < eventVariance e)).length
        oCount := acc.oCount +
          (l.filter fun e => hasPosActual e && decide (eventVariance e < 0)).length } := by
  induction l with
  | nil => intro acc; simp
  | cons e l ih =>
    intro acc
    rcases he : e.actualAmount with _ | a
    · have h1 : hasPosActual e = false := by simp [hasPosActual, he]
      have hvs : varStep acc e = acc := by simp [varStep, he]
      rw [List.foldl_cons, hvs, ih]
      simp [List.filter_cons, h1]
    · by_cases ha : a > 0
      · have h1 : hasPosActual e = true := by simp [hasPosActual, he, ha]
        have hev : eventVariance e = e.amount - a := by simp [eventVariance, he]
        have hgd : e.actualAmount.getD 0 = a := by simp [he]
        rcases lt_trichotomy (e.amount - a) 0 with hd | hd | hd
        · -- overspend case
          have hf2 : (hasPosActual e && decide (0 < eventVariance e)) = false := by
            rw [h1, hev]; simp [lt_asymm hd]
          have hf3 : (hasPosActual e && decide (eventVariance e < 0)) = true := by
            rw [h1, hev]; simp [hd]
          have hvs : varStep acc e =
              { acc with plannedSum := acc.plannedSum + e.amount,
                         actualSum := acc.actualSum + a,
                         overspend := acc.overspend + -(e.amount - a),
                         oCount := acc.oCount + 1 } := by
            simp only [varStep, he]
            rw [if_pos ha, if_neg (lt_asymm hd), if_pos hd, abs_of_neg hd]
          rw [List.foldl_cons, hvs, ih]
          simp only [List.filter_cons, hf2, hf3]
          simp [h1, hgd, hev, VarAcc.mk.injEq]
          and_intros <;> ring
        · -- exactly-on-budget case
          have hf2 : (hasPosActual e && decide (0 < eventVariance e)) = false := by
            rw [h1, hev, hd]; simp
          have hf3 : (hasPosActual e && decide (eventVariance e < 0)) = false := by
            rw [h1, hev, hd]; simp
          have hvs : varStep acc e =
              { acc with plannedSum := acc.plannedSum + e.amount,
                         actualSum := acc.actualSum + a } := by
            simp only [varStep, he]
            rw [if_pos ha, if_neg (by rw [hd]; exact lt_irrefl 0),
              if_neg (by rw [hd]; exact lt_irrefl 0)]
          rw [List.foldl_cons, hvs, ih]
          simp only [List.filter_cons, hf2, hf3]
          simp [h1, hgd, VarAcc.mk.injEq]
          and_intros <;> ring
        · -- savings case
          have hf2 : (hasPosActual e && decide (0 < eventVariance e)) = true := by
            rw [h1, hev]; simp [hd]
          have hf3 : (hasPosActual e && decide (eventVariance e < 0)) = false := by
            rw [h1, hev]; simp [lt_asymm hd]
          have hvs : varStep acc e =
              { acc with plannedSum := acc.plannedSum + e.amount,
                         actualSum := acc.actualSum + a,
                         savings := acc.savings + (e.amount - a),
                         sCount := acc.sCount + 1 } := by
            simp only [varStep, he]
            rw [if_pos ha, if_pos hd]
          rw [List.foldl_cons, hvs, ih]
          simp only [List.filter_cons, hf2, hf3]
          simp [h1, hgd, hev, VarAcc.mk.injEq]
          and_intros <;> ring
      · have h1 : hasPosActual e = false := by simp [hasPosActual, he, ha]
        have hvs : varStep acc e = acc := by simp [varStep, he, ha]
        rw [List.foldl_cons, hvs, ih]
        simp [List.filter_cons, h1]

/-- A plain additive `reduce` is the sum. -/
theorem foldl_add_sum (l : List Rat) : ∀ a : Rat,
    l.foldl (fun acc val => acc + val) a = a + l.sum := by
  induction l with
  | nil => intro a; simp
  | cons x l ih =>
    intro a
    simp only [List.foldl_cons, List.sum_cons, ih]
    ring

/- ---------------------------------------------------------------------- -/
/- Claim theorems                                                         -/
/- ---------------------------------------------------------------------- -/

/-- C1: the variance aggregation considers exactly the events whose
`actualAmount` is present and strictly positive; positive variances
(amount − actual) feed the savings sum and count, negative variances feed the
overspend sum (as absolute values) and count, zero variances and events
without a positive recorded actual feed neither; and on the two scenario
events {amount 300, actual 250} and {amount 100, actual 150} it yields
savings count 1 with sum 50, overspend count 1 with sum 50,
totalPlannedForCompleted 400, and total actual expense 400. -/
theorem variance_aggregation_correct (events : List EventExpense) :
    (varianceSummary events).totalSavings =
      ((events.filter fun e => hasPosActual e && decide (0 < eventVariance e)).map
        eventVariance).sum ∧
    (varianceSummary events).savingsCount =
      (events.filter fun e => hasPosActual e && decide (0 < eventVariance e)).length ∧
    (varianceSummary events).totalOverspend =
      ((events.filter fun e => hasPosActual e && decide (eventVariance e < 0)).map
        fun e => -eventVariance e).sum ∧
    (varianceSummary events).overspendCount =
      (events.filter fun e => hasPosActual e && decide (eventVariance e < 0)).length ∧
    (varianceSummary events).totalPlannedForCompleted =
      ((events.filter hasPosActual).map EventExpense.amount).sum ∧
    varianceSummary [dinnerEvent, tripEvent] =
      { variance := 0, totalPlannedForCompleted := 400, totalSavings := 50,
        totalOverspend := 50, savingsCount := 1, overspendCount := 1 } ∧
    totalActualSpent [dinnerEvent, tripEvent] = 400 := by
  have h := foldl_varStep_eq events ⟨0, 0, 0, 0, 0, 0⟩
  refine ⟨?_, ?_, ?_, ?_, ?_, ?_, ?_⟩
  · simp [varianceSummary, h]
  · simp [varianceSummary, h]
  · simp [varianceSummary, h]
  · simp [varianceSummary, h]
  · simp [varianceSummary, h]
  · norm_num [varianceSummary, varStep, dinnerEvent, tripEvent]
  · norm_num [totalActualSpent, dinnerEvent, tripEvent]

/-- C5: `totalBudget` is `carryOver + yearlyIncome`, where `yearlyIncome` is
the sum of all month-key amounts across all sources; the empty source list
gives `yearlyIncome` 0 and hence `totalBudget = carryOver`. -/
theorem totalBudget_eq_carryOver_add_income (carryOver : Rat)
    (sources : List IncomeSource) :
    totalBudget carryOver sources = carryOver + yearlyIncome sources ∧
    yearlyIncome sources =
      (sources.map fun s => (MONTH_ORDER.map s.monthlyAmounts).sum).sum ∧
    yearlyIncome [] = 0 ∧
    totalBudget carryOver [] = carryOver := by
  refine ⟨rfl, ?_, rfl, ?_⟩
  · unfold yearlyIncome
    have hstep : ∀ (t : Rat) (source : IncomeSource),
        (t + (MONTH_ORDER.map source.monthlyAmounts).foldl (fun acc val => acc + val) 0) =
          t + (fun s : IncomeSource => (MONTH_ORDER.map s.monthlyAmounts).sum) source := by
      intro t source
      rw [foldl_add_sum, zero_add]
    rw [foldl_ext hstep, foldl_add_extract, zero_add]
  · simp [totalBudget, yearlyIncome]

/-- C2: exporting the application state and re-importing the resulting
snapshot (with the confirmation accepted) restores the state exactly — the
events, income sources, carry-over and badminton config all equal the
pre-export values; only the snapshot's `lastUpdated` stamp is fresh. -/
theorem export_import_roundtrip (s : AppState) (now : String) :
    handleImport s (parseExported (handleExport s now)) true =
      (s, ImportOutcome.success) ∧
    (handleExport s now).lastUpdated = now :=
  ⟨rfl, rfl⟩

/-- C3: importing a snapshot that is missing any of `events`,
`incomeSources`, `carryOver` (as a number) or `badmintonConfig` is rejected
with the invalid-format error and leaves the in-memory state exactly as it
was — no partial application. -/
theorem import_validation_rejects_missing_fields (s : AppState) (d : ImportData)
    (confirmed : Bool)
    (hmissing : d.events = none ∨ d.incomeSources = none ∨ d.carryOver = none ∨
      d.badmintonConfig = none) :
    handleImport s d confirmed = (s, ImportOutcome.invalidFormat) := by
  cases he : d.events <;> cases hi : d.incomeSources <;> cases hc : d.carryOver <;>
    cases hb : d.badmintonConfig <;> simp_all [handleImport]

/-- Witness for C3: importing a file whose `carryOver` field is missing is
rejected and changes nothing. -/
theorem import_validation_rejects_missing_fields_witness :
    handleImport sampleState importMissingCarryOver true =
      (sampleState, ImportOutcome.invalidFormat) :=
  import_validation_rejects_missing_fields sampleState importMissingCarryOver true
    (Or.inr (Or.inr (Or.inl rfl)))

/-- Every month key occurs in `MONTH_ORDER`, exactly once. -/
theorem month_order_nodup : MONTH_ORDER.Nodup := by decide

/-- Every month is listed in `MONTH_ORDER`. -/
theorem month_order_mem (m : Month) : m ∈ MONTH_ORDER := by cases m <;> decide

/-- C4: toggling a selected month off removes exactly that month's session
cost from the recurring-activity total while leaving its session list (and the
whole stored config apart from the flag) unchanged; toggling it back restores
the original config, hence the same cost, without touching session data; and a
month with `isSelected` false contributes nothing to the total no matter what
sessions it stores. -/
theorem toggleMonth_cost (config : BadmintonConfig) (month : Month)
    (hsel : (config.months month).isSelected = true) :
    totalBadmintonCost (toggleMonth config month) =
      totalBadmintonCost config - sessionsCost (config.months month).sessions ∧
    ((toggleMonth config month).months month).sessions =
      (config.months month).sessions ∧
    toggleMonth (toggleMonth config month) month = config ∧
    (∀ c1 c2 : BadmintonConfig, ∀ m0 : Month,
      (∀ k, k ≠ m0 → c1.months k = c2.months k) →
      (c1.months m0).isSelected = false → (c2.months m0).isSelected = false →
      totalBadmintonCost c1 = totalBadmintonCost c2) := by
  refine ⟨?_, ?_, ?_, ?_⟩
  · rw [totalBadmintonCost_eq, totalBadmintonCost_eq]
    have hfg : ∀ k, k ≠ month →
        monthContribution (toggleMonth config month) k = monthContribution config k := by
      intro k hk
      simp [monthContribution, toggleMonth, hk]
    have h := sum_map_replace MONTH_ORDER month
      (monthContribution (toggleMonth config month)) (monthContribution config)
      month_order_nodup (month_order_mem month) hfg
    have hf : monthContribution (toggleMonth config month) month = 0 := by
      simp [monthContribution, toggleMonth, hsel]
    have hg : monthContribution config month =
        sessionsCost (config.months month).sessions := by
      simp [monthContribution, hsel]
    rw [h, hf, hg]
    ring
  · simp [toggleMonth]
  · have hmm : ∀ k, (toggleMonth (toggleMonth config month) month).months k =
        config.months k := by
      intro k
      by_cases hk : k = month
      · subst hk
        simp [toggleMonth]
      · simp [toggleMonth, hk]
    exact congrArg BadmintonConfig.mk (funext hmm)
  · intro c1 c2 m0 hk h1 h2
    rw [totalBadmintonCost_eq, totalBadmintonCost_eq]
    refine congrArg List.sum (List.map_congr_left fun k _ => ?_)
    by_cases hkm : k = m0
    · subst hkm
      simp [monthContribution, h1, h2]
    · simp [monthContribution, hk k hkm]

/-- Witness for C4 at a config with all months selected and two sessions of
rate 7.5, 2 courts, 2 hours: deselecting March drops the total by March's
session cost, and toggling twice restores the config. -/
theorem toggleMonth_cost_witness :
    (sampleBadmintonConfig.months Month.Mar).isSelected = true ∧
    totalBadmintonCost (toggleMonth sampleBadmintonConfig Month.Mar) =
      totalBadmintonCost sampleBadmintonConfig -
        sessionsCost ((sampleBadmintonConfig.months Month.Mar).sessions) ∧
    toggleMonth (toggleMonth sampleBadmintonConfig Month.Mar) Month.Mar =
      sampleBadmintonConfig ∧
    sessionsCost ((sampleBadmintonConfig.months Month.Mar).sessions) = 60 :=
  ⟨rfl, (toggleMonth_cost sampleBadmintonConfig Month.Mar rfl).1,
    (toggleMonth_cost sampleBadmintonConfig Month.Mar rfl).2.2.1,
    by norm_num [sessionsCost, sampleBadmintonConfig]⟩

/-- C6: adding a task with a whitespace-only title is a no-op; with a
non-empty title exactly one task is appended, with a fresh id, status `Todo`,
empty checklist, no event link, the fixed `"Team"` placeholder when the
assignee is empty, and budget 0 when the budget input is unparseable. -/
theorem addTask_spec (tasks : List EventTask)
    (freshId title description assignee : String) (budgetInput : Option Rat)
    (hfresh : freshId ∉ tasks.map EventTask.id) :
    (trimString title = "" →
      handleAddTask tasks freshId title description assignee budgetInput = tasks) ∧
    (trimString title ≠ "" →
      handleAddTask tasks freshId title description assignee budgetInput =
        tasks ++ [newTaskOf freshId title description assignee budgetInput]) ∧
    (newTaskOf freshId title description assignee budgetInput).status =
      TaskStatus.Todo ∧
    (newTaskOf freshId title description assignee budgetInput).checklist = [] ∧
    (newTaskOf freshId title description assignee budgetInput).linkedEventId = "" ∧
    (newTaskOf freshId title description assignee budgetInput).id ∉
      tasks.map EventTask.id ∧
    (assignee = "" →
      (newTaskOf freshId title description assignee budgetInput).assignee = "Team") ∧
    (budgetInput = none →
      (newTaskOf freshId title description assignee budgetInput).budget = 0) := by
  refine ⟨fun h => by simp [handleAddTask, h], fun h => by simp [handleAddTask, h],
    rfl, rfl, rfl, hfresh, fun h => by simp [newTaskOf, h], fun h => by simp [newTaskOf, h]⟩

/-- Witness for C6 on a one-task board: a fresh id, a real title, an empty
assignee and an unparseable budget give the documented defaults, and a
whitespace-only title changes nothing. -/
theorem addTask_spec_witness :
    ("task-77" ∉ [venueTask].map EventTask.id) ∧
    handleAddTask [venueTask] "task-77" "Order Food" "" "" none =
      [venueTask] ++ [newTaskOf "task-77" "Order Food" "" "" none] ∧
    (newTaskOf "task-77" "Order Food" "" "" none).status = TaskStatus.Todo ∧
    (newTaskOf "task-77" "Order Food" "" "" none).assignee = "Team" ∧
    (newTaskOf "task-77" "Order Food" "" "" none).budget = 0 ∧
    handleAddTask [venueTask] "task-77" "   " "" "" none = [venueTask] := by
  have h := addTask_spec [venueTask] "task-77" "Order Food" "" "" none (by decide)
  exact ⟨by decide, h.2.1 (by decide), h.2.2.1, h.2.2.2.2.2.2.1 rfl,
    h.2.2.2.2.2.2.2 rfl,
    (addTask_spec [venueTask] "task-77" "   " "" "" none (by decide)).1 (by decide)⟩

/-- When the searched-for task is found and already has the target status,
the status-update map changes nothing (given the board's ids are unique). -/
theorem updateStatus_noop_of_status_eq :
    ∀ (tasks : List EventTask) (taskId : String) (st : TaskStatus),
      (tasks.map EventTask.id).Nodup →
      ∀ t, tasks.find? (fun u => u.id = taskId) = some t → t.status = st →
      handleUpdateTaskStatus tasks taskId st = tasks := by
  intro tasks
  induction tasks with
  | nil => intro taskId st hnd t hfind hst; simp at hfind
  | cons a l ih =>
    intro taskId st hnd t hfind hst
    rw [List.find?_cons] at hfind
    by_cases ha : a.id = taskId
    · have hta : a = t := by simp [ha] at hfind; exact hfind
      subst hta
      have hnotin : a.id ∉ l.map EventTask.id := (List.nodup_cons.mp hnd).1
      have hhead : (if a.id = taskId then { a with status := st } else a) = a := by
        rw [if_pos ha, ← hst]
      have htail :
          l.map (fun u => if u.id = taskId then { u with status := st } else u) = l := by
        have hid : ∀ u ∈ l,
            (if u.id = taskId then { u with status := st } else u) = u := by
          intro u hu
          rw [if_neg]
          intro he
          exact hnotin (ha ▸ he ▸ List.mem_map_of_mem EventTask.id hu)
        calc l.map (fun u => if u.id = taskId then { u with status := st } else u)
            = l.map id := List.map_congr_left hid
          _ = l := List.map_id l
      unfold handleUpdateTaskStatus
      rw [List.map_cons, hhead, htail]
    · simp only [decide_eq_true_eq, ha, decide_False, Bool.false_eq_true,
        if_false] at hfind
      have hrec := ih taskId st (List.nodup_cons.mp hnd).2 t hfind hst
      unfold handleUpdateTaskStatus at hrec ⊢
      rw [List.map_cons, if_neg ha, hrec]

/-- C7: a task created by `handleAddTask` starts in `Todo`; the drag-style
drop action coincides with the explicit status-set action (it is a no-op
exactly when the dragged task already sits in the target column); and on a
board holding the one freshly added task, setting its status to `Done` and
then to `InProgress` leaves exactly one task in `InProgress` and none in
`Done`. -/
theorem task_status_transitions (tasks : List EventTask)
    (taskId freshId title description assignee : String) (budgetInput : Option Rat)
    (st : TaskStatus)
    (hnd : (tasks.map EventTask.id).Nodup)
    (htitle : trimString title ≠ "") :
    handleDrop tasks (some taskId) st = handleUpdateTaskStatus tasks taskId st ∧
    handleDrop tasks none st = tasks ∧
    handleAddTask [] freshId title description assignee budgetInput =
      [newTaskOf freshId title description assignee budgetInput] ∧
    (newTaskOf freshId title description assignee budgetInput).status =
      TaskStatus.Todo ∧
    ((handleUpdateTaskStatus (handleUpdateTaskStatus
        (handleAddTask [] freshId title description assignee budgetInput)
        freshId TaskStatus.Done) freshId TaskStatus.InProgress).filter
      (fun t => t.status = TaskStatus.InProgress)).length = 1 ∧
    ((handleUpdateTaskStatus (handleUpdateTaskStatus
        (handleAddTask [] freshId title description assignee budgetInput)
        freshId TaskStatus.Done) freshId TaskStatus.InProgress).filter
      (fun t => t.status = TaskStatus.Done)).length = 0 := by
  refine ⟨?_, rfl, ?_, rfl, ?_, ?_⟩
  · cases hf : tasks.find? (fun u => u.id = taskId) with
    | none => simp [handleDrop, hf]
    | some t =>
      by_cases hst : t.status = st
      · have hnoop := updateStatus_noop_of_status_eq tasks taskId st hnd t hf hst
        simp [handleDrop, hf, hst, hnoop]
      · simp [handleDrop, hf, hst]
  · simp [handleAddTask, htitle]
  · simp [handleAddTask, htitle, handleUpdateTaskStatus, newTaskOf]
  · simp [handleAddTask, htitle, handleUpdateTaskStatus, newTaskOf]

/-- Witness for C7 on concrete boards: drop and status-set agree on a one-task
board, and the Done-then-InProgress sequence on a fresh board ends with one
task in `InProgress` and none in `Done`. -/
theorem task_status_transitions_witness :
    ([venueTask].map EventTask.id).Nodup ∧
    trimString "Order Food" ≠ "" ∧
    handleDrop [venueTask] (some "task-1") TaskStatus.Done =
      handleUpdateTaskStatus [venueTask] "task-1" TaskStatus.Done ∧
    ((handleUpdateTaskStatus (handleUpdateTaskStatus
        (handleAddTask [] "task-9" "Order Food" "" "" none)
        "task-9" TaskStatus.Done) "task-9" TaskStatus.InProgress).filter
      (fun t => t.status = TaskStatus.InProgress)).length = 1 ∧
    ((handleUpdateTaskStatus (handleUpdateTaskStatus
        (handleAddTask [] "task-9" "Order Food" "" "" none)
        "task-9" TaskStatus.Done) "task-9" TaskStatus.InProgress).filter
      (fun t => t.status = TaskStatus.Done)).length = 0 := by
  have h := task_status_transitions [venueTask] "task-1" "task-9" "Order Food" "" ""
    none TaskStatus.Done (by decide) (by decide)
  exact ⟨by decide, by decide, h.1, h.2.2.2.2.1, h.2.2.2.2.2⟩

/-- A successful key-value lookup exhibits a member of the list. -/
theorem lookup_mem {α β : Type} [BEq α] [LawfulBEq α] {l : List (α × β)} {k : α}
    {v : β} (h : l.lookup k = some v) : (k, v) ∈ l := by
  induction l with
  | nil => simp [List.lookup] at h
  | cons p t ih =>
    rw [List.lookup] at h
    by_cases hk : k == p.1
    · simp [hk] at h
      have hk' := eq_of_beq hk
      subst hk'
      rw [← h]
      exact List.mem_cons_self _ _
    · simp [hk] at h
      exact List.mem_cons_of_mem p (ih h)

/-- C8: on load, a persisted badminton config whose per-month entries all lack
an array-valued `sessions` field (and which, like every config this app ever
persisted, stores a `'Jan'` entry) is discarded wholesale and replaced by the
freshly initialized empty config — identical to `createEmptyBadmintonConfig`,
every month deselected with no sessions — so nothing of the old config
survives. -/
theorem legacy_config_reset (parsed : RawBadmintonConfig) (fm : RawMonthlySettings)
    (hall : (parsed.months.all fun p => p.2.sessions.isNone) = true)
    (hjan : parsed.months.lookup "Jan" = some fm) :
    loadBadmintonConfig (some parsed) = createInitialBadmintonConfig ∧
    createInitialBadmintonConfig = createEmptyBadmintonConfig ∧
    (∀ m, createInitialBadmintonConfig.months m =
      { isSelected := false, sessions := [] }) := by
  have hfm : fm.sessions.isNone = true :=
    List.all_eq_true.mp hall ("Jan", fm) (lookup_mem hjan)
  refine ⟨?_, rfl, fun m => rfl⟩
  simp [loadBadmintonConfig, hjan, hfm]

/-- Witness for C8: the concrete two-entry old-shape config is replaced by the
fresh empty config on load. -/
theorem legacy_config_reset_witness :
    (oldShapeRawConfig.months.all fun p => p.2.sessions.isNone) = true ∧
    oldShapeRawConfig.months.lookup "Jan" =
      some { isSelected := true, sessions := none } ∧
    loadBadmintonConfig (some oldShapeRawConfig) = createInitialBadmintonConfig :=
  ⟨by decide, by decide,
    (legacy_config_reset oldShapeRawConfig { isSelected := true, sessions := none }
      (by decide) (by decide)).1⟩

/-- Folding a step function that cannot distinguish `R`-related elements gives
the same result on `R`-pointwise-related lists. -/
theorem foldl_congr_forall2 {α β : Type} (R : α → α → Prop) (f : β → α → β)
    (hstep : ∀ c a b, R a b → f c a = f c b) :
    ∀ {l l' : List α}, List.Forall₂ R l l' → ∀ c, l.foldl f c = l'.foldl f c := by
  intro l l' h
  induction h with
  | nil => intro c; rfl
  | cons hab _ ih =>
    intro c
    rw [List.foldl_cons, List.foldl_cons, hstep c _ _ hab]
    exact ih _

/-- C9: two application states that differ only in the `linkedEventId` fields
of their tasks produce identical aggregator outputs — yearly income, total
budget, recurring-activity cost, planned and actual expense totals, grand
total, both balances, and the whole variance summary. -/
theorem linkedEventId_noninterference (s s' : AppState)
    (h : stateSameExceptLinks s s') :
    yearlyIncome s.incomeSources = yearlyIncome s'.incomeSources ∧
    totalBudget s.carryOver s.incomeSources =
      totalBudget s'.carryOver s'.incomeSources ∧
    totalBadmintonCost s.badmintonConfig = totalBadmintonCost s'.badmintonConfig ∧
    totalEventPlanned s.events = totalEventPlanned s'.events ∧
    totalActualSpent s.events = totalActualSpent s'.events ∧
    grandTotalPlanned s = grandTotalPlanned s' ∧
    projectedBalance s = projectedBalance s' ∧
    actualBalance s = actualBalance s' ∧
    varianceSummary s.events = varianceSummary s'.events := by
  obtain ⟨hev, hinc, hco, hbc⟩ := h
  have hplanned : totalEventPlanned s.events = totalEventPlanned s'.events := by
    unfold totalEventPlanned
    exact foldl_congr_forall2 eventSameExceptLinks _
      (fun c a b hab => by rw [hab.2.2.2.1]) hev 0
  have hactual : totalActualSpent s.events = totalActualSpent s'.events := by
    unfold totalActualSpent
    exact foldl_congr_forall2 eventSameExceptLinks _
      (fun c a b hab => by rw [hab.2.2.2.2.1]) hev 0
  have hvar : s.events.foldl varStep ⟨0, 0, 0, 0, 0, 0⟩ =
      s'.events.foldl varStep ⟨0, 0, 0, 0, 0, 0⟩ := by
    refine foldl_congr_forall2 eventSameExceptLinks varStep ?_ hev _
    intro c a b hab
    simp only [varStep, hab.2.2.2.1, hab.2.2.2.2.1]
  refine ⟨by rw [hinc], by rw [hinc, hco], by rw [hbc], hplanned, hactual, ?_, ?_, ?_, ?_⟩
  · unfold grandTotalPlanned
    rw [hplanned, hbc]
  · unfold projectedBalance grandTotalPlanned totalBudget
    rw [hplanned, hbc, hinc, hco]
  · unfold actualBalance totalBudget
    rw [hactual, hinc, hco]
  · unfold varianceSummary
    rw [hvar]

/-- Witness for C9: clearing the one task link in a concrete state leaves the
variance summary and both balances unchanged. -/
theorem linkedEventId_noninterference_witness :
    stateSameExceptLinks stateWithLink stateWithoutLink ∧
    varianceSummary stateWithLink.events = varianceSummary stateWithoutLink.events ∧
    projectedBalance stateWithLink = projectedBalance stateWithoutLink ∧
    actualBalance stateWithLink = actualBalance stateWithoutLink := by
  have hrel : stateSameExceptLinks stateWithLink stateWithoutLink := by
    refine ⟨?_, rfl, rfl, rfl⟩
    refine List.Forall₂.cons ?_ (List.Forall₂.cons ?_ List.Forall₂.nil)
    · exact ⟨rfl, rfl, rfl, rfl, rfl, rfl, rfl, rfl, List.Forall₂.nil⟩
    · exact ⟨rfl, rfl, rfl, rfl, rfl, rfl, rfl, rfl,
        List.Forall₂.cons ⟨rfl, rfl, rfl, rfl, rfl, rfl, rfl⟩ List.Forall₂.nil⟩
  have h := linkedEventId_noninterference stateWithLink stateWithoutLink hrel
  exact ⟨hrel, h.2.2.2.2.2.2.2.2, h.2.2.2.2.2.2.1, h.2.2.2.2.2.2.2.1⟩

/-- C10: `handleUpdateEvent` leaves every event with a different id untouched;
on the targeted event it applies the spread merge of the updates — except
that, when the updates carry a truthy amount greater than 0 and the event's
notes read exactly `'Budget Pending'`, the merged event's notes are silently
cleared to `undefined`. -/
theorem updateEvent_notes_quirk (events : List EventExpense) (id : String)
    (u : EventUpdates) :
    List.Forall₂ (fun e r =>
      (e.id ≠ id → r = e) ∧
      (e.id = id →
        ((jsTruthyNum u.amount && decide (u.amount.getD 0 > 0)) = true ∧
            e.notes = some "Budget Pending" →
          r = { mergeEvent e u with notes := none }) ∧
        (¬((jsTruthyNum u.amount && decide (u.amount.getD 0 > 0)) = true ∧
            e.notes = some "Budget Pending") →
          r = mergeEvent e u)))
      events (handleUpdateEvent events id u) := by
  unfold handleUpdateEvent
  rw [List.forall₂_map_right_iff, List.forall₂_same]
  intro e _
  have hiff : (jsTruthyNum u.amount && decide (u.amount.getD 0 > 0) &&
      decide (e.notes = some "Budget Pending")) = true ↔
      ((jsTruthyNum u.amount && decide (u.amount.getD 0 > 0)) = true ∧
        e.notes = some "Budget Pending") := by
    simp [Bool.and_eq_true, decide_eq_true_eq, and_assoc]
  refine ⟨fun hne => ?_, fun heq => ⟨fun hcond => ?_, fun hncond => ?_⟩⟩
  · rw [if_pos hne]
  · rw [if_neg (not_not_intro heq), if_pos (hiff.mpr hcond)]
  · rw [if_neg (not_not_intro heq), if_neg (fun hc => hncond (hiff.mp hc))]

end ERC
